import Mathlib

/-!
A verification development for the microcosm job-orchestration framework,
centred on the Worker Manager (`lib/master/worker_manager.go`) and the
Base Master loop (`lib/master.go`).

The Go code is embedded shallowly: every operation that runs under the
manager's single mutex becomes a pure function on an explicit
`WorkerManager` state; the wall clock is an explicit `Nat` parameter;
channels become lists; goroutine interleavings are modelled as sequences
of atomic operations.  Types that live in packages not part of the
extracted sources (worker entries, the status reader, the timeout
configuration, the concurrency quota) are modelled from the spec and
marked as such in their doc comments.
-/

namespace Microcosm

/-- Worker identifiers (`libModel.WorkerID` is a string alias in Go). -/
abbrev WorkerID := String

/-- Epochs (`libModel.Epoch` is an int64 in Go). -/
abbrev Epoch := Int

/-- `libModel.WorkerStatusCode`: status codes persisted for a worker and
carried in worker status messages. -/
inductive WorkerStatusCode
  | created
  | init
  | normal
  | finished
  | stopped
  | error
deriving DecidableEq, Repr

/-- `libModel.WorkerStatus`: the framework-visible worker status.  The
opaque extension bytes are irrelevant to the claims and omitted. -/
structure WorkerStatus where
  code : WorkerStatusCode
deriving DecidableEq, Repr

/-- `libModel.MasterStatusCode`: status codes persisted for a master. -/
inductive MasterStatusCode
  | uninit
  | statusInit
  | finished
  | stopped
deriving DecidableEq, Repr

/-- Modelled from the spec: `statusutil.Reader` is not among the extracted
sources.  Per the spec, the entry's status reader holds the last known
status (the status cache) plus an asynchronous notification that has been
posted but not yet received. -/
structure StatusReader where
  status : WorkerStatus
  pending : Option WorkerStatus
deriving DecidableEq, Repr

/-- Modelled from the spec: `Reader.OnAsynchronousNotification` records an
asynchronous status notification to be picked up by a later `Receive`. -/
def StatusReader.onAsynchronousNotification (r : StatusReader) (st : WorkerStatus) : StatusReader :=
  { r with pending := some st }

/-- Modelled from the spec: `Reader.Receive` consumes the pending
notification, if any, making it the last known status. -/
def StatusReader.receive (r : StatusReader) : Option StatusReader :=
  match r.pending with
  | some st => some { status := st, pending := none }
  | none => none

/-- The per-entry state machine (`workerEntryState` in worker_entry.go,
which is not among the extracted sources; states are as the spec lists
them: Created, Wait, Online, Offline, Tombstone). -/
inductive WorkerEntryState
  | created
  | wait
  | online
  | offline
  | tombstone
deriving DecidableEq, Repr

/-- Modelled from the spec: `workerEntry` (worker_entry.go is not among
the extracted sources).  Per the spec a worker entry carries the worker
ID, the executor ID (set on first heartbeat; Go zero value is the empty
string), the expiration time, the state, and the status reader. -/
structure WorkerEntry where
  workerID : WorkerID
  executorID : String
  expireTime : Nat
  state : WorkerEntryState
  statusReader : StatusReader
deriving DecidableEq, Repr

/-- Modelled from the spec: `newWorkerEntry` as called by
`BeforeStartingWorker`. -/
def newWorkerEntry (workerID : WorkerID) (executorID : String) (expireTime : Nat)
    (state : WorkerEntryState) (status : WorkerStatus) : WorkerEntry :=
  { workerID := workerID, executorID := executorID, expireTime := expireTime,
    state := state, statusReader := { status := status, pending := none } }

/-- Modelled from the spec: `newWaitingWorkerEntry` as called by
`InitAfterRecover`; a *Wait* entry has no executor yet. -/
def newWaitingWorkerEntry (workerID : WorkerID) (status : WorkerStatus) : WorkerEntry :=
  { workerID := workerID, executorID := "", expireTime := 0,
    state := WorkerEntryState.wait, statusReader := { status := status, pending := none } }

/-- Modelled from the spec: `workerEntry.SetExpireTime`. -/
def WorkerEntry.setExpireTime (e : WorkerEntry) (t : Nat) : WorkerEntry :=
  { e with expireTime := t }

/-- Modelled from the spec: `workerEntry.MarkAsOnline` records the executor
taken from the heartbeat sender and the fresh expiration time. -/
def WorkerEntry.markAsOnline (e : WorkerEntry) (executorID : String) (t : Nat) : WorkerEntry :=
  { e with state := WorkerEntryState.online, executorID := executorID, expireTime := t }

/-- Modelled from the spec: `workerEntry.MarkAsOffline`. -/
def WorkerEntry.markAsOffline (e : WorkerEntry) : WorkerEntry :=
  { e with state := WorkerEntryState.offline }

/-- Modelled from the spec: `workerEntry.MarkAsTombstone`. -/
def WorkerEntry.markAsTombstone (e : WorkerEntry) : WorkerEntry :=
  { e with state := WorkerEntryState.tombstone }

/-- The framework errors (package `pkg/errors`) reachable in the embedded
operations. -/
inductive Err
  | workerFinish
  | workerStop
  | workerOffline (workerID : WorkerID)
  | masterTooManyPendingEvents
  | masterConcurrencyExceeded
  | masterInvalidMeta
  | scheduleFailed
  | addExecutorFailed
  | dispatchErrorCode (code : Int)
  | userCallbackError (n : Nat)
deriving DecidableEq, Repr

/-- The tag of a `masterEvent` (`masterEventType` in master_events.go). -/
inductive masterEventType
  | workerOnlineEvent
  | workerOfflineEvent
  | workerStatusUpdatedEvent
  | workerDispatchFailedEvent
deriving DecidableEq, Repr

/-- The worker handle stored in an event: either a running handle
(`runningHandleImpl`, carrying the executor ID) or a tombstone handle
(`tombstoneHandleImpl`). -/
inductive WorkerHandleRef
  | running (workerID : WorkerID) (executorID : String)
  | tombstone (workerID : WorkerID)
deriving DecidableEq, Repr

/-- In Go the `beforeHook` of a `masterEvent` is a closure; the only two
closures the code ever installs are "mark the captured entry as tombstone"
(`checkWorkerEntriesOnce`) and "delete the entry from the map"
(`AbortCreatingWorker`), so hooks are embedded as this first-order tag. -/
inductive BeforeHookTag
  | markTombstone (workerID : WorkerID)
  | removeEntry (workerID : WorkerID)
deriving DecidableEq, Repr

/-- `masterEvent` (master_events.go): the tagged union placed on the
manager's event queue and consumed by `Tick`. -/
structure masterEvent where
  tp : masterEventType
  workerID : WorkerID
  handle : WorkerHandleRef
  err : Option Err := none
  beforeHook : Option BeforeHookTag := none
deriving DecidableEq, Repr

/-- Modelled from the spec: `config.TimeoutConfig` (lib/config is not
among the extracted sources).  Durations are abstract `Nat` time units. -/
structure TimeoutConfig where
  workerTimeoutDuration : Nat
  workerTimeoutGracefulDuration : Nat
  masterHeartbeatCheckLoopInterval : Nat
deriving DecidableEq, Repr

/-- `workerManagerState` (worker_manager.go line 59). -/
inductive workerManagerState
  | workerManagerReady
  | workerManagerLoadingMeta
  | workerManagerWaitingHeartbeat
deriving DecidableEq, Repr

/-- The state owned by `WorkerManager` (worker_manager.go line 29) under
its single mutex.  Channels are embedded as data: the bounded event queue
is a list, the `allWorkersReady` latch a boolean, the error centre the
first error recorded (`errctx.ErrCenter` keeps only the first). -/
structure WorkerManager where
  masterID : String
  workerEntries : List (WorkerID × WorkerEntry)
  state : workerManagerState
  epoch : Epoch
  eventQueue : List masterEvent
  allWorkersReadyClosed : Bool
  errCenterErr : Option Err
  timeouts : TimeoutConfig
deriving DecidableEq, Repr

/-- The capacity of the event queue channel (worker_manager.go line 100:
`make(chan *masterEvent, 1024)`). -/
def eventQueueCapacity : Nat := 1024

/-- The bound on the wait of `enqueueEvent`, in seconds
(worker_manager.go line 537: `time.NewTimer(1 * time.Second)`). -/
def enqueueTimeoutSeconds : Nat := 1

/-- The soft deadline of `Tick`, in seconds (worker_manager.go line 273:
`context.WithTimeout(ctx, 5*time.Second)`). -/
def tickSoftDeadlineSeconds : Nat := 5

/-- `NewWorkerManager` (worker_manager.go line 67): state starts as Ready
when `isInit`, otherwise as LoadingMeta; the map, queue and latch start
empty. -/
def NewWorkerManager (masterID : String) (epoch : Epoch) (isInit : Bool)
    (timeoutConfig : TimeoutConfig) : WorkerManager :=
  { masterID := masterID,
    workerEntries := [],
    state := if isInit then workerManagerState.workerManagerReady
             else workerManagerState.workerManagerLoadingMeta,
    epoch := epoch,
    eventQueue := [],
    allWorkersReadyClosed := false,
    errCenterErr := none,
    timeouts := timeoutConfig }

/-! ### Association-list model of the Go `workerEntries` map -/

/-- Lookup in the entry map. -/
def lookupA : List (WorkerID × WorkerEntry) → WorkerID → Option WorkerEntry
  | [], _ => none
  | (w, e) :: rest, wid => if w = wid then some e else lookupA rest wid

/-- Map insertion (`m.workerEntries[wid] = e`): replaces the binding if the
key is present, otherwise appends it. -/
def insertA : List (WorkerID × WorkerEntry) → WorkerID → WorkerEntry →
    List (WorkerID × WorkerEntry)
  | [], wid, e => [(wid, e)]
  | (w, e0) :: rest, wid, e =>
    if w = wid then (wid, e) :: rest else (w, e0) :: insertA rest wid e

/-- Map deletion (`delete(m.workerEntries, wid)`). -/
def eraseA (l : List (WorkerID × WorkerEntry)) (wid : WorkerID) :
    List (WorkerID × WorkerEntry) :=
  l.filter (fun p => p.1 ≠ wid)

/-- Entry lookup on a manager. -/
def lookupEntry (m : WorkerManager) (wid : WorkerID) : Option WorkerEntry :=
  lookupA m.workerEntries wid

theorem lookupA_insertA (l : List (WorkerID × WorkerEntry)) (k k' : WorkerID) (e : WorkerEntry) :
    lookupA (insertA l k e) k' = if k = k' then some e else lookupA l k' := by
  induction l with
  | nil =>
    by_cases h : k = k' <;> simp [insertA, lookupA, h]
  | cons p rest ih =>
    obtain ⟨w, e0⟩ := p
    by_cases hw : w = k
    · subst hw
      by_cases h : w = k' <;> simp [insertA, lookupA, h]
    · by_cases h : w = k'
      · subst h
        have : ¬ k = w := fun hh => hw hh.symm
        simp [insertA, lookupA, hw, this]
      · simp [insertA, lookupA, hw, h, ih]

theorem lookupA_eraseA (l : List (WorkerID × WorkerEntry)) (k k' : WorkerID) :
    lookupA (eraseA l k) k' = if k = k' then none else lookupA l k' := by
  induction l with
  | nil => by_cases h : k = k' <;> simp [eraseA, lookupA, h]
  | cons p rest ih =>
    obtain ⟨w, e0⟩ := p
    by_cases hw : w = k
    · subst hw
      by_cases h : w = k' <;> simp_all [eraseA, lookupA, List.filter]
    · by_cases h : k = k'
      · subst h
        have : w ≠ k := hw
        simp_all [eraseA, lookupA, List.filter]
      · by_cases hwk : w = k' <;> simp_all [eraseA, lookupA, List.filter]

/-! ### Worker Manager operations -/

/-- The result of the epoch guard `checkMasterEpochMatch`
(worker_manager.go line 514): a larger message epoch panics the master
(`log.Panic("We are a stale master still running")`), a smaller one is
reported as a mismatch, an equal one passes. -/
inductive EpochCheck
  | panicStaleMaster
  | mismatch
  | ok
deriving DecidableEq, Repr

/-- `checkMasterEpochMatch` (worker_manager.go line 514). -/
def checkMasterEpochMatch (selfEpoch msgEpoch : Epoch) : EpochCheck :=
  if msgEpoch > selfEpoch then EpochCheck.panicStaleMaster
  else if msgEpoch < selfEpoch then EpochCheck.mismatch
  else EpochCheck.ok

/-- `errctx.ErrCenter.OnError`: records only the first error. -/
def onErrorCenter (m : WorkerManager) (e : Err) : WorkerManager :=
  match m.errCenterErr with
  | some _ => m
  | none => { m with errCenterErr := some e }

/-- `enqueueEvent` (worker_manager.go line 536).  The Go code blocks for up
to `enqueueTimeoutSeconds` on a full channel and then fails with
`ErrMasterTooManyPendingEvents`; in this sequential model an enqueue onto
a full queue fails and an enqueue onto a non-full queue succeeds. -/
def enqueueEvent (m : WorkerManager) (event : masterEvent) : Except Err WorkerManager :=
  if m.eventQueue.length < eventQueueCapacity then
    Except.ok { m with eventQueue := m.eventQueue ++ [event] }
  else
    Except.error Err.masterTooManyPendingEvents

/-- `nextExpireTime` (worker_manager.go line 509). -/
def nextExpireTime (m : WorkerManager) (now : Nat) : Nat :=
  now + (m.timeouts.workerTimeoutDuration + m.timeouts.workerTimeoutGracefulDuration)

/-- `libModel.HeartbeatPingMessage`. -/
structure HeartbeatPingMessage where
  sendTime : Nat
  fromWorkerID : WorkerID
  epoch : Epoch
deriving DecidableEq, Repr

/-- `statusutil.WorkerStatusMessage`. -/
structure WorkerStatusMessage where
  worker : WorkerID
  masterEpoch : Epoch
  status : WorkerStatus
deriving DecidableEq, Repr

/-- The result of a message-handler call: Go's `log.Panic` terminates the
process, so a handler either panics (stale master, or the unexpected-entry
-state panic in the recovery branch) or returns the updated manager. -/
inductive HBResult
  | panicStaleMaster
  | panicEntryState
  | ok (m : WorkerManager)
deriving DecidableEq, Repr

/-- `HandleHeartbeat` (worker_manager.go line 198).  Mirrors the Go control
flow: a manager still loading metadata drops every message; then the epoch
guard runs; then the entry is looked up (unknown workers are dropped) and
its expiration refreshed; during `WaitingHeartbeat` a *Wait* entry flips to
*Online* silently (possibly closing the `allWorkersReady` latch), any other
state panics; otherwise only a *Created* entry flips to *Online* and
enqueues the `workerOnlineEvent` (an enqueue failure goes to the error
centre). -/
def HandleHeartbeat (m : WorkerManager) (msg : HeartbeatPingMessage)
    (fromNode : String) (now : Nat) : HBResult :=
  if m.state = workerManagerState.workerManagerLoadingMeta then HBResult.ok m
  else
    match checkMasterEpochMatch m.epoch msg.epoch with
    | EpochCheck.panicStaleMaster => HBResult.panicStaleMaster
    | EpochCheck.mismatch => HBResult.ok m
    | EpochCheck.ok =>
      match lookupEntry m msg.fromWorkerID with
      | none => HBResult.ok m
      | some entry =>
        let entry1 := entry.setExpireTime (nextExpireTime m now)
        if m.state = workerManagerState.workerManagerWaitingHeartbeat then
          if entry1.state ≠ WorkerEntryState.wait then HBResult.panicEntryState
          else
            let entry2 := entry1.markAsOnline fromNode (nextExpireTime m now)
            let m1 := { m with workerEntries := insertA m.workerEntries msg.fromWorkerID entry2 }
            let allReady := m1.workerEntries.all (fun p => p.2.state ≠ WorkerEntryState.wait)
            if allReady then HBResult.ok { m1 with allWorkersReadyClosed := true }
            else HBResult.ok m1
        else
          if entry1.state ≠ WorkerEntryState.created then
            HBResult.ok { m with workerEntries := insertA m.workerEntries msg.fromWorkerID entry1 }
          else
            let entry2 := entry1.markAsOnline fromNode (nextExpireTime m now)
            let m1 := { m with workerEntries := insertA m.workerEntries msg.fromWorkerID entry2 }
            let ev : masterEvent :=
              { tp := masterEventType.workerOnlineEvent,
                workerID := msg.fromWorkerID,
                handle := WorkerHandleRef.running msg.fromWorkerID fromNode }
            match enqueueEvent m1 ev with
            | Except.ok m2 => HBResult.ok m2
            | Except.error e => HBResult.ok (onErrorCenter m1 e)

/-- `OnWorkerStatusUpdateMessage` (worker_manager.go line 362): epoch
guard, then the addressed entry's status reader records the asynchronous
notification; an unknown worker is dropped with a log. -/
def OnWorkerStatusUpdateMessage (m : WorkerManager) (msg : WorkerStatusMessage) : HBResult :=
  match checkMasterEpochMatch m.epoch msg.masterEpoch with
  | EpochCheck.panicStaleMaster => HBResult.panicStaleMaster
  | EpochCheck.mismatch => HBResult.ok m
  | EpochCheck.ok =>
    match lookupEntry m msg.worker with
    | some entry =>
      let entry1 := { entry with
        statusReader := entry.statusReader.onAsynchronousNotification msg.status }
      HBResult.ok { m with workerEntries := insertA m.workerEntries msg.worker entry1 }
    | none => HBResult.ok m

/-- `BeforeStartingWorker` (worker_manager.go line 314): inserts a
*Created* entry; Go panics (`none` here) if the worker already exists. -/
def BeforeStartingWorker (m : WorkerManager) (workerID : WorkerID)
    (executorID : String) (now : Nat) : Option WorkerManager :=
  match lookupEntry m workerID with
  | some _ => none
  | none =>
    let fresh := newWorkerEntry workerID executorID (nextExpireTime m now)
      WorkerEntryState.created { code := WorkerStatusCode.created }
    some { m with workerEntries := insertA m.workerEntries workerID fresh }

/-- `AbortCreatingWorker` (worker_manager.go line 335): enqueues a
`workerDispatchFailedEvent` whose before-hook removes the entry when the
event is consumed; an enqueue failure goes to the error centre. -/
def AbortCreatingWorker (m : WorkerManager) (workerID : WorkerID) (errIn : Err) : WorkerManager :=
  let event : masterEvent :=
    { tp := masterEventType.workerDispatchFailedEvent,
      workerID := workerID,
      handle := WorkerHandleRef.tombstone workerID,
      err := some errIn,
      beforeHook := some (BeforeHookTag.removeEntry workerID) }
  match enqueueEvent m event with
  | Except.ok m1 => m1
  | Except.error e => onErrorCenter m e

/-- `IsInitialized` (worker_manager.go line 410). -/
def IsInitialized (m : WorkerManager) : Bool :=
  m.state = workerManagerState.workerManagerReady

/-- The offline reason computed by `checkWorkerEntriesOnce`
(worker_manager.go lines 461-471) from the last known status code. -/
def offlineReasonOf (workerID : WorkerID) (r : StatusReader) : Err :=
  match r.status.code with
  | WorkerStatusCode.finished => Err.workerFinish
  | WorkerStatusCode.stopped => Err.workerStop
  | _ => Err.workerOffline workerID

/-- One iteration of the entry scan in `checkWorkerEntriesOnce`
(worker_manager.go lines 428-488), for the worker `wid`.  The entry is
re-read from the accumulated manager because the Go loop mutates entries
in place.  (The Go code guards `entry.StatusReader()` against nil; in this
model, as in the spec's data model, every entry carries a reader.) -/
def checkEntryOnce (now : Nat) (acc : WorkerManager) (wid : WorkerID) :
    Except Err WorkerManager :=
  match lookupEntry acc wid with
  | none => Except.ok acc
  | some entry =>
    if entry.state = WorkerEntryState.offline ∨ entry.state = WorkerEntryState.tombstone then
      Except.ok acc
    else if now < entry.expireTime then
      -- Not timed out: deliver a pending status notification, if any.
      match entry.statusReader.receive with
      | some r1 =>
        let entries1 := insertA acc.workerEntries wid { entry with statusReader := r1 }
        let acc1 := { acc with workerEntries := entries1 }
        enqueueEvent acc1
          { tp := masterEventType.workerStatusUpdatedEvent,
            workerID := wid,
            handle := WorkerHandleRef.running wid entry.executorID }
      | none => Except.ok acc
    else
      -- The worker has timed out.
      let entries1 := insertA acc.workerEntries wid entry.markAsOffline
      let acc1 := { acc with workerEntries := entries1 }
      enqueueEvent acc1
        { tp := masterEventType.workerOfflineEvent,
          workerID := wid,
          handle := WorkerHandleRef.tombstone wid,
          err := some (offlineReasonOf wid entry.statusReader),
          beforeHook := some (BeforeHookTag.markTombstone wid) }

/-- `checkWorkerEntriesOnce` (worker_manager.go line 417): a no-op unless
the manager is Ready, otherwise one scan over all entries. -/
def checkWorkerEntriesOnce (now : Nat) (m : WorkerManager) : Except Err WorkerManager :=
  if m.state ≠ workerManagerState.workerManagerReady then Except.ok m
  else (m.workerEntries.map Prod.fst).foldlM (checkEntryOnce now) m

/-- The loading phase of `InitAfterRecover` (worker_manager.go lines
151-169): every persisted worker whose status is not Finished becomes a
*Wait* entry; with no entries at all the manager goes straight to Ready
(fast path, the call returns immediately), otherwise to WaitingHeartbeat. -/
def initAfterRecoverLoad (m : WorkerManager)
    (allPersistedWorkers : List (WorkerID × WorkerStatus)) : WorkerManager :=
  let entries := allPersistedWorkers.foldl
    (fun acc p =>
      if p.2.code = WorkerStatusCode.finished then acc
      else insertA acc p.1 (newWaitingWorkerEntry p.1 p.2))
    m.workerEntries
  if entries.isEmpty then
    { m with workerEntries := entries, state := workerManagerState.workerManagerReady }
  else
    { m with workerEntries := entries, state := workerManagerState.workerManagerWaitingHeartbeat }

/-- The interval `InitAfterRecover` waits for heartbeats
(worker_manager.go line 171). -/
def initAfterRecoverTimeoutInterval (m : WorkerManager) : Nat :=
  m.timeouts.workerTimeoutDuration + m.timeouts.workerTimeoutGracefulDuration

/-- The completion of `InitAfterRecover` (worker_manager.go lines 177-195)
out of the WaitingHeartbeat state: on the timer branch (`timedOut = true`)
every still-*Wait* entry is marked *Tombstone*; on the latch branch the
entries are untouched; either way the manager becomes Ready.  Nothing is
ever enqueued here. -/
def initAfterRecoverFinish (m : WorkerManager) (timedOut : Bool) : WorkerManager :=
  let tombstoneWaiting := fun (p : WorkerID × WorkerEntry) =>
    (p.1, if p.2.state = WorkerEntryState.wait then p.2.markAsTombstone else p.2)
  let m1 :=
    if timedOut then { m with workerEntries := m.workerEntries.map tombstoneWaiting }
    else m
  { m1 with state := workerManagerState.workerManagerReady }

/-- Runs a consumed event's before-hook (worker_manager.go lines 287-289):
the offline hook marks the captured entry tombstone, the dispatch-failed
hook removes the entry from the map. -/
def applyBeforeHook (m : WorkerManager) (h : Option BeforeHookTag) : WorkerManager :=
  match h with
  | none => m
  | some (BeforeHookTag.markTombstone wid) =>
    let entries1 := m.workerEntries.map
      (fun p => if p.1 = wid then (p.1, p.2.markAsTombstone) else p)
    { m with workerEntries := entries1 }
  | some (BeforeHookTag.removeEntry wid) =>
    { m with workerEntries := eraseA m.workerEntries wid }

/-- The event loop of `Tick` (worker_manager.go lines 277-309), with the
user callbacks abstracted as `cbs` (the .go callbacks return an error or
nil).  The `select` has a `default` branch, so an empty queue returns nil
immediately; each event's before-hook runs before its callback; the first
callback error stops the loop. -/
def tickLoop (cbs : masterEvent → Option Err) :
    List masterEvent → WorkerManager → Option Err × WorkerManager
  | [], m => (none, m)
  | e :: rest, m =>
    let m1 := applyBeforeHook { m with eventQueue := rest } e.beforeHook
    match cbs e with
    | some err => (some err, m1)
    | none => tickLoop cbs rest m1

/-- `Tick` (worker_manager.go line 268): first re-raise any error recorded
in the error centre, then drain the queue.  (The 5-second soft deadline
and the context are real-time constructs outside this sequential model;
see `tickSoftDeadlineSeconds`.) -/
def Tick (cbs : masterEvent → Option Err) (m : WorkerManager) :
    Option Err × WorkerManager :=
  match m.errCenterErr with
  | some e => (some e, m)
  | none => tickLoop cbs m.eventQueue m

/-- A single event delivery as `Tick` performs it: dequeue the head event
and run its before-hook (the callback then observes the hooked state). -/
def deliverOne (m : WorkerManager) : WorkerManager × Option masterEvent :=
  match m.eventQueue with
  | [] => (m, none)
  | e :: rest => (applyBeforeHook { m with eventQueue := rest } e.beforeHook, some e)

/-! ### Base Master (lib/master.go) -/

/-- `createWorkerWaitQuotaTimeout` in seconds (master.go line 79). -/
def createWorkerWaitQuotaTimeoutSeconds : Nat := 5

/-- `createWorkerTimeout` in seconds (master.go line 80). -/
def createWorkerTimeoutSeconds : Nat := 10

/-- `maxCreateWorkerConcurrency` (master.go line 81). -/
def maxCreateWorkerConcurrency : Nat := 100

/-- The worker types `prepareWorkerConfig` distinguishes (master.go lines
484-507): the three nested-master types, the three DM worker types, and
the default branch. -/
inductive WorkerType
  | cvsJobMaster
  | fakeJobMaster
  | dmJobMaster
  | workerDMDump
  | workerDMLoad
  | workerDMSync
  | otherWorker
deriving DecidableEq, Repr

/-- A `WorkerConfig` value as `prepareWorkerConfig` inspects it: either a
`*MasterMetaKVData` (carrying a pre-allocated master ID and raw config
bytes) or a user-defined config struct (its toml/json encoding abstracted
to the raw bytes it serialises to). -/
inductive WorkerConfig
  | masterMeta (id : WorkerID) (raw : List Nat)
  | userConfig (raw : List Nat)
deriving DecidableEq, Repr

/-- `prepareWorkerConfig` (master.go line 481): for master types the
config must be a `MasterMetaKVData` whose ID is reused as the worker ID
(otherwise `ErrMasterInvalidMeta`); for worker and default types the
config is serialised and a fresh UUID (`freshID`) becomes the worker ID. -/
def prepareWorkerConfig (workerType : WorkerType) (config : WorkerConfig)
    (freshID : WorkerID) : Except Err (List Nat × WorkerID) :=
  match workerType with
  | WorkerType.cvsJobMaster | WorkerType.fakeJobMaster | WorkerType.dmJobMaster =>
    match config with
    | WorkerConfig.masterMeta id raw => Except.ok (raw, id)
    | _ => Except.error Err.masterInvalidMeta
  | WorkerType.workerDMDump | WorkerType.workerDMLoad | WorkerType.workerDMSync =>
    match config with
    | WorkerConfig.masterMeta _ raw => Except.ok (raw, freshID)
    | WorkerConfig.userConfig raw => Except.ok (raw, freshID)
  | WorkerType.otherWorker =>
    match config with
    | WorkerConfig.masterMeta _ raw => Except.ok (raw, freshID)
    | WorkerConfig.userConfig raw => Except.ok (raw, freshID)

/-- The synchronous outcome of `CreateWorker` (master.go line 511): the
returned worker ID (empty on error), the returned error, whether the
asynchronous dispatch body was spawned, and the in-flight dispatch count
afterwards.  Modelled from the spec where the quota is concerned:
`quota.ConcurrencyQuota` is not among the extracted sources; per the spec
it is a counting semaphore of capacity `maxCreateWorkerConcurrency` whose
`Consume` fails after the 5-second deadline when the quota is exhausted. -/
structure CreateWorkerOutcome where
  workerID : WorkerID
  err : Option Err
  asyncSpawned : Bool
  inFlightAfter : Nat
deriving DecidableEq, Repr

/-- The synchronous part of `CreateWorker` (master.go lines 511-596):
consume the quota (exhaustion ⇒ `ErrMasterConcurrencyExceeded`), prepare
the config (failure ⇒ return its error; note the Go code returns here
without releasing the quota), then spawn the asynchronous dispatch body
and return the worker ID with a nil error. -/
def CreateWorker (inFlight : Nat) (workerType : WorkerType) (config : WorkerConfig)
    (freshID : WorkerID) : CreateWorkerOutcome :=
  if maxCreateWorkerConcurrency ≤ inFlight then
    { workerID := "", err := some Err.masterConcurrencyExceeded,
      asyncSpawned := false, inFlightAfter := inFlight }
  else
    match prepareWorkerConfig workerType config freshID with
    | Except.error e =>
      { workerID := "", err := some e, asyncSpawned := false, inFlightAfter := inFlight + 1 }
    | Except.ok (_, workerID) =>
      { workerID := workerID, err := none, asyncSpawned := true, inFlightAfter := inFlight + 1 }

/-- Modelled from the spec: the Worker Manager method the dispatch body
reports its outcome to (`OnCreatingWorkerFinished` is not among the
extracted sources; the spec's outcome table, §4.4: a nil error means the
dispatch is treated as a success for the manager and nothing further
happens; a non-nil error aborts the creation via the dispatch-failed
event whose hook removes the entry). -/
def OnCreatingWorkerFinished (m : WorkerManager) (workerID : WorkerID)
    (err : Option Err) : WorkerManager :=
  match err with
  | none => m
  | some e => AbortCreatingWorker m workerID e

/-- The five possible outcomes of the I/O performed by the asynchronous
dispatch body (master.go lines 532-593): scheduler RPC failure, executor
registration failure, dispatch RPC transport failure, dispatch RPC
explicit error code, dispatch RPC OK. -/
inductive DispatchOutcome
  | scheduleError
  | addExecutorError
  | rpcNetworkError
  | rpcErrorCode (code : Int)
  | rpcOK
deriving DecidableEq, Repr

/-- The asynchronous dispatch body of `CreateWorker` (master.go lines
532-593) as a function of the I/O outcome.  A scheduler failure reports
the error before any entry exists; otherwise the entry is registered
(`OnCreatingWorker` in this commit of master.go, which is
`BeforeStartingWorker` on the extracted manager — `none` means the
registration panicked on a duplicate ID); then registration failure and
an explicit dispatch error code report the error, while a dispatch RPC
transport failure and an OK response both report nil: the executor may
have already launched the worker. -/
def dispatchAsyncBody (m : WorkerManager) (workerID : WorkerID) (executorID : String)
    (now : Nat) (outcome : DispatchOutcome) : Option WorkerManager :=
  match outcome with
  | DispatchOutcome.scheduleError =>
    some (OnCreatingWorkerFinished m workerID (some Err.scheduleFailed))
  | _ =>
    match BeforeStartingWorker m workerID executorID now with
    | none => none
    | some m1 =>
      match outcome with
      | DispatchOutcome.scheduleError => none
      | DispatchOutcome.addExecutorError =>
        some (OnCreatingWorkerFinished m1 workerID (some Err.addExecutorFailed))
      | DispatchOutcome.rpcNetworkError =>
        some (OnCreatingWorkerFinished m1 workerID none)
      | DispatchOutcome.rpcErrorCode c =>
        some (OnCreatingWorkerFinished m1 workerID (some (Err.dispatchErrorCode c)))
      | DispatchOutcome.rpcOK =>
        some (OnCreatingWorkerFinished m1 workerID none)

/-- The externally visible effects of `DefaultBaseMaster.Init` (master.go
lines 220-240) in order, for the error-free execution. -/
inductive InitAction
  | loadMasterMeta
  | genEpoch
  | storeMasterMeta
  | newWorkerManagerA (isInit : Bool)
  | registerHandlerHeartbeatPing
  | registerHandlerWorkerStatus
  | callInitImpl
  | callOnMasterRecovered
  | markStatusCodeA (code : MasterStatusCode)
deriving DecidableEq, Repr

/-- The effect trace of `Init` (master.go lines 220-240, via `doInit`
lines 242-279 and `refreshMetadata` lines 434-461), given the prior
persisted `StatusCode`: refresh the metadata (Load, GenEpoch, Store),
build the Worker Manager with `isInit = (prior StatusCode == Uninit)`,
register the two P2P handlers, run exactly one of the two user callbacks,
and finally mark `StatusCode = Init` (`markStatusCodeInMetadata`). -/
def initActions (priorStatus : MasterStatusCode) : List InitAction :=
  let isInit := priorStatus = MasterStatusCode.uninit
  [InitAction.loadMasterMeta,
   InitAction.genEpoch,
   InitAction.storeMasterMeta,
   InitAction.newWorkerManagerA isInit,
   InitAction.registerHandlerHeartbeatPing,
   InitAction.registerHandlerWorkerStatus,
   if isInit then InitAction.callInitImpl else InitAction.callOnMasterRecovered,
   InitAction.markStatusCodeA MasterStatusCode.statusInit]

/-! ### Traces of manager operations -/

/-- A step of the interleavings claimed about: a `HandleHeartbeat` call or
a single event delivery by `Tick`. -/
inductive Step
  | heartbeat (msg : HeartbeatPingMessage) (fromNode : String) (now : Nat)
  | deliver
deriving DecidableEq, Repr

/-- Runs one step on the manager, accumulating the events `Tick` has
delivered to the user (the second component, a history variable).  A
panicking heartbeat stops the process, so it leaves the state unchanged. -/
def stepRun (p : WorkerManager × List masterEvent) (s : Step) :
    WorkerManager × List masterEvent :=
  match s with
  | Step.heartbeat msg fromNode now =>
    match HandleHeartbeat p.1 msg fromNode now with
    | HBResult.ok m' => (m', p.2)
    | _ => p
  | Step.deliver =>
    match p.1.eventQueue with
    | [] => p
    | e :: rest =>
      (applyBeforeHook { p.1 with eventQueue := rest } e.beforeHook, p.2 ++ [e])

/-- Runs a sequence of steps from `m` with an empty delivery history. -/
def runSteps (m : WorkerManager) (steps : List Step) : WorkerManager × List masterEvent :=
  steps.foldl stepRun (m, [])

/-- The number of `workerOnlineEvent`s for `wid` in a list of events. -/
def onlineEventCount (wid : WorkerID) (evs : List masterEvent) : Nat :=
  evs.countP (fun e =>
    decide (e.tp = masterEventType.workerOnlineEvent ∧ e.workerID = wid))

/-- The at-most-one-online invariant: for every worker, at most one online
event exists across the delivered history and the pending queue, and none
at all while the worker's entry is still in the *Created* or *Wait* state
(the only states an online event can still be produced from). -/
def atMostOneOnlineInv (m : WorkerManager) (delivered : List masterEvent) : Prop :=
  ∀ wid : WorkerID,
    onlineEventCount wid (delivered ++ m.eventQueue) ≤ 1 ∧
    (∀ e : WorkerEntry, lookupEntry m wid = some e →
      (e.state = WorkerEntryState.created ∨ e.state = WorkerEntryState.wait) →
      onlineEventCount wid (delivered ++ m.eventQueue) = 0)

/-- The manager states reachable by the embedded operations.  The two
boolean indices are history variables: whether the manager was constructed
with `isInit` (the master started with `StatusCode == Uninit`), and
whether `InitAfterRecover` has completed (either because all expected
workers heart-beat, closing the latch, or because the
timeout-plus-grace period elapsed, or through the no-surviving-worker
fast path). -/
inductive Reached : Bool → Bool → WorkerManager → Prop
  | started (masterID : String) (epoch : Epoch) (isInit : Bool) (tc : TimeoutConfig) :
      Reached isInit false (NewWorkerManager masterID epoch isInit tc)
  | heartbeatStep {si rd : Bool} {m : WorkerManager} {msg : HeartbeatPingMessage}
      {fromNode : String} {now : Nat} {m' : WorkerManager} :
      Reached si rd m → HandleHeartbeat m msg fromNode now = HBResult.ok m' →
      Reached si rd m'
  | statusUpdateStep {si rd : Bool} {m : WorkerManager} {msg : WorkerStatusMessage}
      {m' : WorkerManager} :
      Reached si rd m → OnWorkerStatusUpdateMessage m msg = HBResult.ok m' →
      Reached si rd m'
  | beforeStartingStep {si rd : Bool} {m : WorkerManager} {wid : WorkerID}
      {exec : String} {now : Nat} {m' : WorkerManager} :
      Reached si rd m → BeforeStartingWorker m wid exec now = some m' →
      Reached si rd m'
  | abortCreatingStep {si rd : Bool} {m : WorkerManager} {wid : WorkerID} {err : Err} :
      Reached si rd m → Reached si rd (AbortCreatingWorker m wid err)
  | checkStep {si rd : Bool} {m : WorkerManager} {now : Nat} {m' : WorkerManager} :
      Reached si rd m → checkWorkerEntriesOnce now m = Except.ok m' →
      Reached si rd m'
  | deliverStep {si rd : Bool} {m : WorkerManager} :
      Reached si rd m → Reached si rd (deliverOne m).1
  | recoverLoadFast {si : Bool} {m : WorkerManager}
      {persisted : List (WorkerID × WorkerStatus)} :
      Reached si false m →
      m.state = workerManagerState.workerManagerLoadingMeta →
      (initAfterRecoverLoad m persisted).state = workerManagerState.workerManagerReady →
      Reached si true (initAfterRecoverLoad m persisted)
  | recoverLoadWait {si : Bool} {m : WorkerManager}
      {persisted : List (WorkerID × WorkerStatus)} :
      Reached si false m →
      m.state = workerManagerState.workerManagerLoadingMeta →
      (initAfterRecoverLoad m persisted).state =
        workerManagerState.workerManagerWaitingHeartbeat →
      Reached si false (initAfterRecoverLoad m persisted)
  | recoverFinish {si : Bool} {m : WorkerManager} {timedOut : Bool} :
      Reached si false m →
      m.state = workerManagerState.workerManagerWaitingHeartbeat →
      (timedOut = true ∨ m.allWorkersReadyClosed = true) →
      Reached si true (initAfterRecoverFinish m timedOut)

/-! ### Helper lemmas -/

theorem enqueueEvent_state {m m' : WorkerManager} {e : masterEvent}
    (h : enqueueEvent m e = Except.ok m') : m'.state = m.state := by
  unfold enqueueEvent at h
  split at h
  · injection h with h; subst h; rfl
  · exact absurd h (by simp)

theorem onErrorCenter_state (m : WorkerManager) (e : Err) :
    (onErrorCenter m e).state = m.state := by
  unfold onErrorCenter
  split <;> rfl

theorem HandleHeartbeat_state {m : WorkerManager} {msg : HeartbeatPingMessage}
    {fromNode : String} {now : Nat} {m' : WorkerManager}
    (h : HandleHeartbeat m msg fromNode now = HBResult.ok m') : m'.state = m.state := by
  unfold HandleHeartbeat at h
  split at h
  · injection h with h; subst h; rfl
  · split at h
    · exact absurd h (by simp)
    · injection h with h; subst h; rfl
    · split at h
      · injection h with h; subst h; rfl
      · split at h
        · dsimp only [] at h
          split at h
          · exact absurd h (by simp)
          · split at h
            · injection h with h; subst h; rfl
            · injection h with h; subst h; rfl
        · dsimp only [] at h
          split at h
          · injection h with h; subst h; rfl
          · split at h
            · rename_i heq
              injection h with h; subst h
              have h3 := enqueueEvent_state heq
              exact h3
            · injection h with h; subst h
              exact onErrorCenter_state _ _

theorem OnWorkerStatusUpdateMessage_state {m : WorkerManager} {msg : WorkerStatusMessage}
    {m' : WorkerManager}
    (h : OnWorkerStatusUpdateMessage m msg = HBResult.ok m') : m'.state = m.state := by
  unfold OnWorkerStatusUpdateMessage at h
  split at h
  · exact absurd h (by simp)
  · injection h with h; subst h; rfl
  · split at h
    · injection h with h; subst h; rfl
    · injection h with h; subst h; rfl

theorem BeforeStartingWorker_state {m : WorkerManager} {wid : WorkerID} {exec : String}
    {now : Nat} {m' : WorkerManager}
    (h : BeforeStartingWorker m wid exec now = some m') : m'.state = m.state := by
  unfold BeforeStartingWorker at h
  split at h
  · exact absurd h (by simp)
  · injection h with h; subst h; rfl

theorem AbortCreatingWorker_state (m : WorkerManager) (wid : WorkerID) (err : Err) :
    (AbortCreatingWorker m wid err).state = m.state := by
  unfold AbortCreatingWorker
  dsimp only []
  split
  · rename_i heq; exact enqueueEvent_state heq
  · exact onErrorCenter_state _ _

theorem checkEntryOnce_state {now : Nat} {acc acc' : WorkerManager} {wid : WorkerID}
    (h : checkEntryOnce now acc wid = Except.ok acc') : acc'.state = acc.state := by
  unfold checkEntryOnce at h
  split at h
  · injection h with h; subst h; rfl
  · split at h
    · injection h with h; subst h; rfl
    · split at h
      · split at h
        · dsimp only [] at h
          have h3 := enqueueEvent_state h
          exact h3
        · injection h with h; subst h; rfl
      · dsimp only [] at h
        have h3 := enqueueEvent_state h
        exact h3

theorem foldlM_checkEntryOnce_state {now : Nat} :
    ∀ (l : List WorkerID) (acc acc' : WorkerManager),
    List.foldlM (checkEntryOnce now) acc l = Except.ok acc' → acc'.state = acc.state := by
  intro l
  induction l with
  | nil =>
    intro acc acc' h
    simp only [List.foldlM, pure, Except.pure] at h
    injection h with h; subst h; rfl
  | cons k rest ih =>
    intro acc acc' h
    rw [List.foldlM_cons] at h
    cases h1 : checkEntryOnce now acc k with
    | error e =>
      rw [h1] at h
      simp only [Bind.bind, Except.bind] at h
      exact Except.noConfusion h
    | ok acc1 =>
      rw [h1] at h
      simp only [Bind.bind, Except.bind] at h
      have h2 := ih acc1 acc' h
      rw [h2, checkEntryOnce_state h1]

theorem checkWorkerEntriesOnce_state {now : Nat} {m m' : WorkerManager}
    (h : checkWorkerEntriesOnce now m = Except.ok m') : m'.state = m.state := by
  unfold checkWorkerEntriesOnce at h
  split at h
  · injection h with h; subst h; rfl
  · exact foldlM_checkEntryOnce_state _ _ _ h

theorem applyBeforeHook_state (m : WorkerManager) (h : Option BeforeHookTag) :
    (applyBeforeHook m h).state = m.state := by
  unfold applyBeforeHook
  split <;> rfl

theorem deliverOne_state (m : WorkerManager) : (deliverOne m).1.state = m.state := by
  unfold deliverOne
  split
  · rfl
  · exact applyBeforeHook_state _ _

theorem initAfterRecoverFinish_state (m : WorkerManager) (timedOut : Bool) :
    (initAfterRecoverFinish m timedOut).state = workerManagerState.workerManagerReady := by
  unfold initAfterRecoverFinish
  split <;> rfl

theorem onlineEventCount_append (wid : WorkerID) (l1 l2 : List masterEvent) :
    onlineEventCount wid (l1 ++ l2) = onlineEventCount wid l1 + onlineEventCount wid l2 := by
  unfold onlineEventCount
  exact List.countP_append _ _ _

theorem onlineEventCount_singleton_online (wid wid0 : WorkerID) (h : WorkerHandleRef) :
    onlineEventCount wid
      [{ tp := masterEventType.workerOnlineEvent, workerID := wid0, handle := h }] =
      if wid0 = wid then 1 else 0 := by
  by_cases hw : wid0 = wid <;> simp [onlineEventCount, List.countP, List.countP.go, hw]

theorem onlineEventCount_singleton_not_online (wid : WorkerID) (e : masterEvent)
    (h : e.tp ≠ masterEventType.workerOnlineEvent) :
    onlineEventCount wid [e] = 0 := by
  simp [onlineEventCount, List.countP, List.countP.go, h]

/-- Lookup after the tombstone-marking map performed by the offline
before-hook. -/
theorem lookupA_mapTombstone (l : List (WorkerID × WorkerEntry)) (k k' : WorkerID) :
    lookupA (l.map (fun p => if p.1 = k then (p.1, p.2.markAsTombstone) else p)) k' =
      if k = k' then (lookupA l k').map WorkerEntry.markAsTombstone else lookupA l k' := by
  induction l with
  | nil => by_cases h : k = k' <;> simp [lookupA, h]
  | cons p rest ih =>
    obtain ⟨w, e0⟩ := p
    simp only [List.map_cons]
    by_cases hw : w = k
    · rw [if_pos hw]
      by_cases h : w = k'
      · subst h
        rw [lookupA, if_pos rfl, if_pos hw.symm, lookupA, if_pos rfl]
        rfl
      · have hk : ¬ k = k' := fun hh => h (hw.trans hh)
        rw [lookupA, if_neg h, ih, lookupA, if_neg h, if_neg hk]
    · rw [if_neg hw]
      by_cases h : w = k'
      · subst h
        have hk : ¬ k = w := fun hh => hw hh.symm
        rw [lookupA, if_pos rfl, if_neg hk, lookupA, if_pos rfl]
      · rw [lookupA, if_neg h, ih, lookupA, if_neg h]

/-- `applyBeforeHook` never touches the event queue. -/
theorem applyBeforeHook_eventQueue (m : WorkerManager) (h : Option BeforeHookTag) :
    (applyBeforeHook m h).eventQueue = m.eventQueue := by
  unfold applyBeforeHook
  split <;> rfl

/-- After a before-hook, no entry is in the *Created* or *Wait* state
unless it already was. -/
theorem applyBeforeHook_lookup_pre (m : WorkerManager) (hk : Option BeforeHookTag)
    (wid : WorkerID) (e : WorkerEntry)
    (hl : lookupEntry (applyBeforeHook m hk) wid = some e)
    (hs : e.state = WorkerEntryState.created ∨ e.state = WorkerEntryState.wait) :
    lookupEntry m wid = some e ∨
      (∃ e0, lookupEntry m wid = some e0 ∧ e0.state = e.state) := by
  unfold applyBeforeHook at hl
  match hk with
  | none => exact Or.inl hl
  | some (BeforeHookTag.markTombstone k) =>
    dsimp only [] at hl
    unfold lookupEntry at hl
    rw [lookupA_mapTombstone] at hl
    by_cases hkw : k = wid
    · rw [if_pos hkw] at hl
      cases h0 : lookupA m.workerEntries wid with
      | none => rw [h0] at hl; exact absurd hl (by simp)
      | some e0 =>
        rw [h0] at hl
        have hl2 : some e0.markAsTombstone = some e := hl
        injection hl2 with hl2
        subst hl2
        cases hs with
        | inl h => exact absurd h (by simp [WorkerEntry.markAsTombstone])
        | inr h => exact absurd h (by simp [WorkerEntry.markAsTombstone])
    · rw [if_neg hkw] at hl
      exact Or.inl hl
  | some (BeforeHookTag.removeEntry k) =>
    dsimp only [] at hl
    unfold lookupEntry at hl
    rw [lookupA_eraseA] at hl
    by_cases hkw : k = wid
    · rw [if_pos hkw] at hl; exact absurd hl (by simp)
    · rw [if_neg hkw] at hl; exact Or.inl hl

theorem enqueueEvent_ok {m m' : WorkerManager} {e : masterEvent}
    (h : enqueueEvent m e = Except.ok m') :
    m' = { m with eventQueue := m.eventQueue ++ [e] } := by
  unfold enqueueEvent at h
  split at h
  · injection h with h; exact h.symm
  · exact Except.noConfusion h

theorem onErrorCenter_eventQueue (m : WorkerManager) (e : Err) :
    (onErrorCenter m e).eventQueue = m.eventQueue := by
  unfold onErrorCenter; split <;> rfl

theorem onErrorCenter_workerEntries (m : WorkerManager) (e : Err) :
    (onErrorCenter m e).workerEntries = m.workerEntries := by
  unfold onErrorCenter; split <;> rfl

/-- Inserting an entry in the *Online* state preserves the invariant when
the queue is unchanged. -/
theorem insertA_online_inv {m : WorkerManager} (d : List masterEvent)
    (wid0 : WorkerID) (entry2 : WorkerEntry)
    (hstate : entry2.state = WorkerEntryState.online)
    (hinv : atMostOneOnlineInv m d) (m' : WorkerManager)
    (hq : m'.eventQueue = m.eventQueue)
    (he : m'.workerEntries = insertA m.workerEntries wid0 entry2) :
    atMostOneOnlineInv m' d := by
  intro wid
  have h1 := hinv wid
  constructor
  · rw [hq]; exact h1.1
  · intro e hl hs
    unfold lookupEntry at hl
    rw [he, lookupA_insertA] at hl
    rw [hq]
    by_cases hww : wid0 = wid
    · rw [if_pos hww] at hl
      injection hl with hl
      subst hl
      cases hs with
      | inl hcs => rw [hstate] at hcs; exact absurd hcs (by simp)
      | inr hcs => rw [hstate] at hcs; exact absurd hcs (by simp)
    · rw [if_neg hww] at hl
      exact h1.2 e hl hs

/-- Replacing an entry by one in the same state preserves the invariant
when the queue is unchanged. -/
theorem insertA_samestate_inv {m : WorkerManager} (d : List masterEvent)
    (wid0 : WorkerID) (entry entry1 : WorkerEntry)
    (hlook : lookupEntry m wid0 = some entry)
    (hstate : entry1.state = entry.state)
    (hinv : atMostOneOnlineInv m d) (m' : WorkerManager)
    (hq : m'.eventQueue = m.eventQueue)
    (he : m'.workerEntries = insertA m.workerEntries wid0 entry1) :
    atMostOneOnlineInv m' d := by
  intro wid
  have h1 := hinv wid
  constructor
  · rw [hq]; exact h1.1
  · intro e hl hs
    unfold lookupEntry at hl
    rw [he, lookupA_insertA] at hl
    rw [hq]
    by_cases hww : wid0 = wid
    · rw [if_pos hww] at hl
      injection hl with hl
      subst hl
      rw [hstate] at hs
      subst hww
      exact h1.2 entry hlook hs
    · rw [if_neg hww] at hl
      exact h1.2 e hl hs

/-- The *Created* → *Online* transition that enqueues the online event
preserves the invariant: the entry was in a pre-online state, so its
online count was zero and becomes one. -/
theorem enqueue_online_inv {m : WorkerManager} (d : List masterEvent)
    (wid0 : WorkerID) (entry entry2 : WorkerEntry)
    (hlook : lookupEntry m wid0 = some entry)
    (hpre : entry.state = WorkerEntryState.created)
    (hstate : entry2.state = WorkerEntryState.online)
    (hinv : atMostOneOnlineInv m d) (m' : WorkerManager) (hand : WorkerHandleRef)
    (hq : m'.eventQueue = m.eventQueue ++
      [{ tp := masterEventType.workerOnlineEvent, workerID := wid0, handle := hand }])
    (he : m'.workerEntries = insertA m.workerEntries wid0 entry2) :
    atMostOneOnlineInv m' d := by
  intro wid
  have h1 := hinv wid
  have hcnt0 := (hinv wid0).2 entry hlook (Or.inl hpre)
  constructor
  · rw [hq, ← List.append_assoc, onlineEventCount_append,
      onlineEventCount_singleton_online]
    by_cases hww : wid0 = wid
    · subst hww
      rw [if_pos rfl, hcnt0]
    · rw [if_neg hww]
      simpa using h1.1
  · intro e hl hs
    unfold lookupEntry at hl
    rw [he, lookupA_insertA] at hl
    by_cases hww : wid0 = wid
    · rw [if_pos hww] at hl
      injection hl with hl
      subst hl
      cases hs with
      | inl hcs => rw [hstate] at hcs; exact absurd hcs (by simp)
      | inr hcs => rw [hstate] at hcs; exact absurd hcs (by simp)
    · rw [if_neg hww] at hl
      have hz := h1.2 e hl hs
      rw [hq, ← List.append_assoc, onlineEventCount_append,
        onlineEventCount_singleton_online, if_neg hww, hz]

/-- `HandleHeartbeat` preserves the at-most-one-online invariant. -/
theorem HandleHeartbeat_inv {m : WorkerManager} {msg : HeartbeatPingMessage}
    {fromNode : String} {now : Nat} {m' : WorkerManager} (d : List masterEvent)
    (h : HandleHeartbeat m msg fromNode now = HBResult.ok m')
    (hinv : atMostOneOnlineInv m d) : atMostOneOnlineInv m' d := by
  unfold HandleHeartbeat at h
  split at h
  · injection h with h; subst h; exact hinv
  · split at h
    · exact absurd h (by simp)
    · injection h with h; subst h; exact hinv
    · split at h
      · injection h with h; subst h; exact hinv
      · rename_i entry hlook
        split at h
        · dsimp only [] at h
          split at h
          · exact absurd h (by simp)
          · rename_i hwait
            rw [not_not] at hwait
            split at h <;>
              (injection h with h; subst h;
               exact insertA_online_inv d msg.fromWorkerID _ rfl hinv _ rfl rfl)
        · dsimp only [] at h
          split at h
          · rename_i hnc
            injection h with h; subst h
            exact insertA_samestate_inv d msg.fromWorkerID entry
              (entry.setExpireTime (nextExpireTime m now)) hlook rfl hinv _ rfl rfl
          · rename_i hnc
            rw [not_not] at hnc
            split at h
            · rename_i m2 heq
              injection h with h; subst h
              have hm2 := enqueueEvent_ok heq
              subst hm2
              refine enqueue_online_inv d msg.fromWorkerID entry _ hlook ?_ rfl hinv _
                (WorkerHandleRef.running msg.fromWorkerID fromNode) rfl rfl
              exact hnc
            · rename_i err heq
              injection h with h; subst h
              refine insertA_online_inv d msg.fromWorkerID
                ((entry.setExpireTime (nextExpireTime m now)).markAsOnline fromNode
                  (nextExpireTime m now)) rfl hinv _ ?_ ?_
              · rw [onErrorCenter_eventQueue]
              · rw [onErrorCenter_workerEntries]

/-- Every step (a heartbeat or an event delivery) preserves the
at-most-one-online invariant. -/
theorem stepRun_inv (p : WorkerManager × List masterEvent) (s : Step)
    (hinv : atMostOneOnlineInv p.1 p.2) :
    atMostOneOnlineInv (stepRun p s).1 (stepRun p s).2 := by
  obtain ⟨m, d⟩ := p
  match s with
  | Step.heartbeat msg fromNode now =>
    dsimp only [stepRun]
    cases hh : HandleHeartbeat m msg fromNode now with
    | ok m' => exact HandleHeartbeat_inv d hh hinv
    | panicStaleMaster => exact hinv
    | panicEntryState => exact hinv
  | Step.deliver =>
    dsimp only [stepRun]
    cases hq : m.eventQueue with
    | nil => exact hinv
    | cons e rest =>
      dsimp only []
      have hc : d ++ e :: rest = (d ++ [e]) ++ rest := by
        rw [List.append_assoc, List.singleton_append]
      intro wid
      have h1 := hinv wid
      rw [hq, hc] at h1
      constructor
      · rw [applyBeforeHook_eventQueue]
        exact h1.1
      · intro e' hl hs
        rw [applyBeforeHook_eventQueue]
        have hpre := applyBeforeHook_lookup_pre _ _ _ _ hl hs
        cases hpre with
        | inl h0 =>
          exact h1.2 e' h0 hs
        | inr h0 =>
          obtain ⟨e0, h0, hst⟩ := h0
          refine h1.2 e0 h0 ?_
          rw [hst]
          exact hs

/-- Any run of heartbeats and deliveries preserves the invariant. -/
theorem runSteps_inv (m : WorkerManager) (steps : List Step)
    (hinv : atMostOneOnlineInv m []) :
    atMostOneOnlineInv (runSteps m steps).1 (runSteps m steps).2 := by
  unfold runSteps
  suffices h : ∀ (ss : List Step) (p : WorkerManager × List masterEvent),
      atMostOneOnlineInv p.1 p.2 →
      atMostOneOnlineInv (ss.foldl stepRun p).1 (ss.foldl stepRun p).2 by
    exact h steps (m, []) hinv
  intro ss
  induction ss with
  | nil => intro p hp; exact hp
  | cons s rest ih =>
    intro p hp
    rw [List.foldl_cons]
    exact ih _ (stepRun_inv p s hp)

theorem IsInitialized_iff (m : WorkerManager) :
    IsInitialized m = true ↔ m.state = workerManagerState.workerManagerReady := by
  simp [IsInitialized]

/-- The entry-insertion fold of `initAfterRecoverLoad`. -/
def recoverFold (acc : List (WorkerID × WorkerEntry))
    (ps : List (WorkerID × WorkerStatus)) : List (WorkerID × WorkerEntry) :=
  ps.foldl
    (fun acc p =>
      if p.2.code = WorkerStatusCode.finished then acc
      else insertA acc p.1 (newWaitingWorkerEntry p.1 p.2))
    acc

theorem recoverFold_lookup_not_mem (ps : List (WorkerID × WorkerStatus))
    (acc : List (WorkerID × WorkerEntry)) (wid : WorkerID)
    (h : wid ∉ ps.map Prod.fst) :
    lookupA (recoverFold acc ps) wid = lookupA acc wid := by
  induction ps generalizing acc with
  | nil => rfl
  | cons p rest ih =>
    obtain ⟨w, st⟩ := p
    simp only [List.map_cons, List.mem_cons] at h
    push_neg at h
    obtain ⟨hne, hnm⟩ := h
    unfold recoverFold
    rw [List.foldl_cons]
    have hstep := ih (if st.code = WorkerStatusCode.finished then acc
      else insertA acc w (newWaitingWorkerEntry w st)) hnm
    unfold recoverFold at hstep
    rw [hstep]
    split
    · rfl
    · rw [lookupA_insertA, if_neg (fun hh => hne hh.symm)]

theorem recoverFold_lookup_mem (ps : List (WorkerID × WorkerStatus))
    (acc : List (WorkerID × WorkerEntry)) (wid : WorkerID) (st : WorkerStatus)
    (hnd : (ps.map Prod.fst).Nodup) (hmem : (wid, st) ∈ ps) :
    lookupA (recoverFold acc ps) wid =
      if st.code = WorkerStatusCode.finished then lookupA acc wid
      else some (newWaitingWorkerEntry wid st) := by
  induction ps generalizing acc with
  | nil => exact absurd hmem (by simp)
  | cons p rest ih =>
    obtain ⟨w, st0⟩ := p
    simp only [List.map_cons, List.nodup_cons] at hnd
    obtain ⟨hw, hnd'⟩ := hnd
    unfold recoverFold
    rw [List.foldl_cons]
    rcases List.mem_cons.mp hmem with hhead | htail
    · injection hhead with h1 h2
      subst h1; subst h2
      have hnm : wid ∉ rest.map Prod.fst := hw
      have := recoverFold_lookup_not_mem rest
        (if st.code = WorkerStatusCode.finished then acc
          else insertA acc wid (newWaitingWorkerEntry wid st)) wid hnm
      unfold recoverFold at this
      rw [this]
      split
      · rfl
      · rw [lookupA_insertA, if_pos rfl]
    · have hne : w ≠ wid := by
        intro hh
        subst hh
        exact hw (List.mem_map_of_mem Prod.fst htail)
      have := ih (if st0.code = WorkerStatusCode.finished then acc
        else insertA acc w (newWaitingWorkerEntry w st0)) hnd' htail
      unfold recoverFold at this
      rw [this]
      split
      · split
        · rfl
        · rw [lookupA_insertA, if_neg hne]
      · rfl

/-- Claim C4 (confirmed): over every reachable manager state,
`IsInitialized()` returns true iff either the Worker Manager was
constructed with `isInit` true (the master started with
`StatusCode == Uninit`; the `started` history flag), or `InitAfterRecover`
has completed — through the no-surviving-worker fast path, the
`allWorkersReady` latch closing, or the timeout-plus-grace period elapsing
(the `recoverDone` history flag); no other operation changes the
manager's state. -/
theorem C4_is_initialized_iff : ∀ {si rd : Bool} {m : WorkerManager},
    Reached si rd m → (IsInitialized m = true ↔ (si = true ∨ rd = true)) := by
  intro si rd m h
  induction h with
  | started masterID epoch isInit tc =>
    cases isInit <;> simp [IsInitialized, NewWorkerManager]
  | heartbeatStep hr hstep ih =>
    rw [IsInitialized_iff] at ih ⊢
    rw [HandleHeartbeat_state hstep]
    exact ih
  | statusUpdateStep hr hstep ih =>
    rw [IsInitialized_iff] at ih ⊢
    rw [OnWorkerStatusUpdateMessage_state hstep]
    exact ih
  | beforeStartingStep hr hstep ih =>
    rw [IsInitialized_iff] at ih ⊢
    rw [BeforeStartingWorker_state hstep]
    exact ih
  | abortCreatingStep hr ih =>
    rw [IsInitialized_iff] at ih ⊢
    rw [AbortCreatingWorker_state]
    exact ih
  | checkStep hr hstep ih =>
    rw [IsInitialized_iff] at ih ⊢
    rw [checkWorkerEntriesOnce_state hstep]
    exact ih
  | deliverStep hr ih =>
    rw [IsInitialized_iff] at ih ⊢
    rw [deliverOne_state]
    exact ih
  | recoverLoadFast hr hload hready ih =>
    rw [IsInitialized_iff]
    simp [hready]
  | recoverLoadWait hr hload hwait ih =>
    rw [IsInitialized_iff] at ih ⊢
    rw [hwait]
    constructor
    · intro hcon; exact absurd hcon (by simp)
    · intro hcon
      have hred := ih.mpr hcon
      rw [hload] at hred
      exact absurd hred (by simp)
  | recoverFinish hr hwait hclosed ih =>
    rw [IsInitialized_iff]
    rw [initAfterRecoverFinish_state]
    simp

/-- The events `tickLoop` processes: everything up to and including the
first event whose callback errors. -/
def processedPrefix (cbs : masterEvent → Option Err) : List masterEvent → List masterEvent
  | [] => []
  | e :: rest =>
    match cbs e with
    | some _ => [e]
    | none => e :: processedPrefix cbs rest

/-- Consumes a list of events: for each one, pop the queue head and run
the event's before-hook (exactly what `Tick` does per event). -/
def consumeHooks (m : WorkerManager) (evs : List masterEvent) : WorkerManager :=
  evs.foldl
    (fun acc e => applyBeforeHook { acc with eventQueue := acc.eventQueue.tail } e.beforeHook)
    m

/-- The first error produced by a callback over a list of events. -/
def firstCallbackErr (cbs : masterEvent → Option Err) : List masterEvent → Option Err
  | [] => none
  | e :: rest =>
    match cbs e with
    | some err => some err
    | none => firstCallbackErr cbs rest

theorem tickLoop_spec (cbs : masterEvent → Option Err) :
    ∀ (evs : List masterEvent) (m : WorkerManager), m.eventQueue = evs →
    tickLoop cbs evs m = (firstCallbackErr cbs evs, consumeHooks m (processedPrefix cbs evs)) := by
  intro evs
  induction evs with
  | nil =>
    intro m hm
    simp [tickLoop, consumeHooks, processedPrefix, firstCallbackErr]
  | cons e rest ih =>
    intro m hm
    have ht : ({ m with eventQueue := m.eventQueue.tail } : WorkerManager) =
        { m with eventQueue := rest } := by rw [hm]; rfl
    cases hc : cbs e with
    | some err =>
      have hl : tickLoop cbs (e :: rest) m =
          (some err, applyBeforeHook { m with eventQueue := rest } e.beforeHook) := by
        rw [tickLoop]
        rw [hc]
      rw [hl]
      unfold firstCallbackErr processedPrefix
      rw [hc]
      unfold consumeHooks
      rw [List.foldl_cons, List.foldl_nil, ht]
    | none =>
      have hl : tickLoop cbs (e :: rest) m =
          tickLoop cbs rest (applyBeforeHook { m with eventQueue := rest } e.beforeHook) := by
        rw [tickLoop]
        rw [hc]
      rw [hl]
      unfold firstCallbackErr processedPrefix
      rw [hc]
      unfold consumeHooks
      rw [List.foldl_cons, ht]
      have hq1 : (applyBeforeHook { m with eventQueue := rest } e.beforeHook).eventQueue
          = rest := applyBeforeHook_eventQueue _ _
      have hrec := ih (applyBeforeHook { m with eventQueue := rest } e.beforeHook) hq1
      unfold consumeHooks at hrec
      exact hrec

/-! ### Concrete fixtures used by witnesses and counterexamples -/

/-- A concrete timeout configuration (the spec's scenario values:
worker timeout 15 s, grace 5 s, check interval 1 s). -/
def tc0 : TimeoutConfig :=
  { workerTimeoutDuration := 15, workerTimeoutGracefulDuration := 5,
    masterHeartbeatCheckLoopInterval := 1 }

/-- A recovering manager still loading metadata (constructed with
`isInit = false`), at epoch 5. -/
def mLoading : WorkerManager := NewWorkerManager "master-1" 5 false tc0

/-- A heartbeat carrying an epoch (6) larger than `mLoading`'s (5). -/
def msgNewer : HeartbeatPingMessage :=
  { sendTime := 0, fromWorkerID := "w1", epoch := 6 }

/-- An initialized manager at epoch 5. -/
def mReady5 : WorkerManager := NewWorkerManager "master-1" 5 true tc0

/-- A heartbeat from a smaller epoch (4). -/
def msgOlder : HeartbeatPingMessage :=
  { sendTime := 0, fromWorkerID := "w1", epoch := 4 }

/-- A worker status message from a larger epoch (6). -/
def wsNewer : WorkerStatusMessage :=
  { worker := "w1", masterEpoch := 6, status := { code := WorkerStatusCode.normal } }

/-! ### The claims -/

/-- Claim C1 (amended): the epoch guard of the Worker Manager.  A message
with a smaller epoch is silently dropped by both handlers with no state
mutated, and one with an equal epoch passes the guard; a message with a
larger epoch is fatal in `OnWorkerStatusUpdateMessage` always, and in
`HandleHeartbeat` only outside the metadata-loading state — while loading
metadata, `HandleHeartbeat` drops every message before consulting the epoch
at all. -/
theorem C1_epoch_guard :
    (∀ (m : WorkerManager) (msg : HeartbeatPingMessage) (fromNode : String) (now : Nat),
      msg.epoch < m.epoch →
      HandleHeartbeat m msg fromNode now = HBResult.ok m) ∧
    (∀ (m : WorkerManager) (msg : WorkerStatusMessage),
      msg.masterEpoch < m.epoch →
      OnWorkerStatusUpdateMessage m msg = HBResult.ok m) ∧
    (∀ (m : WorkerManager) (msg : HeartbeatPingMessage) (fromNode : String) (now : Nat),
      m.epoch < msg.epoch →
      m.state ≠ workerManagerState.workerManagerLoadingMeta →
      HandleHeartbeat m msg fromNode now = HBResult.panicStaleMaster) ∧
    (∀ (m : WorkerManager) (msg : HeartbeatPingMessage) (fromNode : String) (now : Nat),
      m.state = workerManagerState.workerManagerLoadingMeta →
      HandleHeartbeat m msg fromNode now = HBResult.ok m) ∧
    (∀ (m : WorkerManager) (msg : WorkerStatusMessage),
      m.epoch < msg.masterEpoch →
      OnWorkerStatusUpdateMessage m msg = HBResult.panicStaleMaster) ∧
    (∀ selfEpoch msgEpoch : Epoch, msgEpoch = selfEpoch →
      checkMasterEpochMatch selfEpoch msgEpoch = EpochCheck.ok) := by
  have hmm : ∀ (selfEpoch msgEpoch : Epoch), msgEpoch < selfEpoch →
      checkMasterEpochMatch selfEpoch msgEpoch = EpochCheck.mismatch := by
    intro s e h
    unfold checkMasterEpochMatch
    rw [if_neg (lt_asymm h), if_pos h]
  have hpp : ∀ (selfEpoch msgEpoch : Epoch), selfEpoch < msgEpoch →
      checkMasterEpochMatch selfEpoch msgEpoch = EpochCheck.panicStaleMaster := by
    intro s e h
    unfold checkMasterEpochMatch
    rw [if_pos h]
  refine ⟨?_, ?_, ?_, ?_, ?_, ?_⟩
  · intro m msg fromNode now hlt
    unfold HandleHeartbeat
    split
    · rfl
    · rw [hmm m.epoch msg.epoch hlt]
  · intro m msg hlt
    unfold OnWorkerStatusUpdateMessage
    rw [hmm m.epoch msg.masterEpoch hlt]
  · intro m msg fromNode now hgt hst
    unfold HandleHeartbeat
    rw [if_neg hst, hpp m.epoch msg.epoch hgt]
  · intro m msg fromNode now hst
    unfold HandleHeartbeat
    rw [if_pos hst]
  · intro m msg hgt
    unfold OnWorkerStatusUpdateMessage
    rw [hpp m.epoch msg.masterEpoch hgt]
  · intro s e h
    subst h
    unfold checkMasterEpochMatch
    rw [if_neg (lt_irrefl e), if_neg (lt_irrefl e)]

/-- Claim C1 witness: the guard at concrete inputs — a smaller-epoch
heartbeat is dropped with the state unchanged, a larger-epoch heartbeat on
a manager that is not loading metadata is fatal, and a larger-epoch status
message is fatal. -/
theorem C1_epoch_guard_witness :
    HandleHeartbeat mReady5 msgOlder "node-1" 0 = HBResult.ok mReady5 ∧
    HandleHeartbeat mReady5 msgNewer "node-1" 0 = HBResult.panicStaleMaster ∧
    OnWorkerStatusUpdateMessage mReady5 wsNewer = HBResult.panicStaleMaster :=
  ⟨C1_epoch_guard.1 mReady5 msgOlder "node-1" 0 (by decide),
   C1_epoch_guard.2.2.1 mReady5 msgNewer "node-1" 0 (by decide) (by decide),
   C1_epoch_guard.2.2.2.2.1 mReady5 wsNewer (by decide)⟩

/-- Claim C1 counterexample: a heartbeat whose epoch (6) is larger than the
manager's (5) arriving while the manager is still loading metadata is
silently dropped (`HandleHeartbeat` returns with the state unchanged), not
fatal — contradicting "if it is larger the master is terminated". -/
theorem C1_counterexample :
    mLoading.epoch < msgNewer.epoch ∧
    HandleHeartbeat mLoading msgNewer "node-1" 0 = HBResult.ok mLoading ∧
    HandleHeartbeat mLoading msgNewer "node-1" 0 ≠ HBResult.panicStaleMaster := by
  refine ⟨by decide, by rfl, by decide⟩

/-- Claim C6 (confirmed): the event queue is created with capacity 1024
(`make(chan *masterEvent, 1024)`), the enqueue wait is bounded by 1 second,
an enqueue attempt on a full queue fails with
`ErrMasterTooManyPendingEvents`, and an enqueue onto a non-full queue
succeeds, appending the event. -/
theorem C6_event_queue_backpressure :
    eventQueueCapacity = 1024 ∧
    enqueueTimeoutSeconds = 1 ∧
    (∀ (m : WorkerManager) (e : masterEvent),
      eventQueueCapacity ≤ m.eventQueue.length →
      enqueueEvent m e = Except.error Err.masterTooManyPendingEvents) ∧
    (∀ (m : WorkerManager) (e : masterEvent),
      m.eventQueue.length < eventQueueCapacity →
      enqueueEvent m e = Except.ok { m with eventQueue := m.eventQueue ++ [e] }) := by
  refine ⟨rfl, rfl, ?_, ?_⟩
  · intro m e h
    unfold enqueueEvent
    rw [if_neg (by omega)]
  · intro m e h
    unfold enqueueEvent
    rw [if_pos h]

/-- An arbitrary event to enqueue. -/
def evC6 : masterEvent :=
  { tp := masterEventType.workerOnlineEvent, workerID := "w1",
    handle := WorkerHandleRef.running "w1" "exec-1" }

/-- A manager whose event queue is full (1024 events). -/
def mFullC6 : WorkerManager :=
  { NewWorkerManager "master-1" 1 true tc0 with
    eventQueue := List.replicate 1024 evC6 }

/-- Claim C6 witness: enqueueing onto the full queue fails with
`MasterTooManyPendingEvents`; onto the empty queue it succeeds. -/
theorem C6_witness :
    enqueueEvent mFullC6 evC6 = Except.error Err.masterTooManyPendingEvents ∧
    enqueueEvent (NewWorkerManager "master-1" 1 true tc0) evC6 =
      Except.ok { NewWorkerManager "master-1" 1 true tc0 with eventQueue := [evC6] } :=
  ⟨C6_event_queue_backpressure.2.2.1 mFullC6 evC6
    (by
      have hq : mFullC6.eventQueue = List.replicate 1024 evC6 := rfl
      rw [hq, List.length_replicate]
      decide),
   C6_event_queue_backpressure.2.2.2 (NewWorkerManager "master-1" 1 true tc0) evC6
    (by decide)⟩

/-- Claim C9 (amended): the effect order of `Init`.  It refreshes the
metadata (Load, GenEpoch, Store), constructs the Worker Manager with
`isInit = (prior StatusCode == Uninit)`, registers the heartbeat-ping and
worker-status handlers, then calls exactly one of `InitImpl` (prior status
Uninit) or `OnMasterRecovered` (otherwise), and only after the callback
marks `StatusCode = Init` in the metadata store — the status mark is the
last action, after the callback, not before it. -/
theorem C9_init_effect_order :
    ∀ p : MasterStatusCode,
      (initActions p).take 3 =
        [InitAction.loadMasterMeta, InitAction.genEpoch, InitAction.storeMasterMeta] ∧
      InitAction.newWorkerManagerA (decide (p = MasterStatusCode.uninit)) ∈ initActions p ∧
      ((initActions p).filter
        (fun a => decide (a = InitAction.callInitImpl ∨
          a = InitAction.callOnMasterRecovered))).length = 1 ∧
      (InitAction.callInitImpl ∈ initActions p ↔ p = MasterStatusCode.uninit) ∧
      (InitAction.callOnMasterRecovered ∈ initActions p ↔ p ≠ MasterStatusCode.uninit) ∧
      (initActions p).indexOf InitAction.registerHandlerHeartbeatPing <
        (initActions p).indexOf
          (if p = MasterStatusCode.uninit then InitAction.callInitImpl
           else InitAction.callOnMasterRecovered) ∧
      (initActions p).indexOf
          (if p = MasterStatusCode.uninit then InitAction.callInitImpl
           else InitAction.callOnMasterRecovered) <
        (initActions p).indexOf (InitAction.markStatusCodeA MasterStatusCode.statusInit) ∧
      (initActions p).getLast? = some (InitAction.markStatusCodeA MasterStatusCode.statusInit) := by
  intro p
  cases p <;> decide

/-- Claim C9 counterexample: in the `Init` effect trace for a first-time
startup, `markStatusCodeInMetadata(Init)` is at index 7 and the `InitImpl`
callback at index 6 — the status mark does not precede the callback, as the
claim's "registers …, marks StatusCode = Init, and calls …, in that order"
requires. -/
theorem C9_counterexample :
    (initActions MasterStatusCode.uninit).indexOf
        (InitAction.markStatusCodeA MasterStatusCode.statusInit) = 7 ∧
    (initActions MasterStatusCode.uninit).indexOf InitAction.callInitImpl = 6 ∧
    ¬ ((initActions MasterStatusCode.uninit).indexOf
        (InitAction.markStatusCodeA MasterStatusCode.statusInit) <
       (initActions MasterStatusCode.uninit).indexOf InitAction.callInitImpl) := by
  decide

/-- A manager whose error centre already holds an error, with an empty
event queue. -/
def mTickErr : WorkerManager :=
  { NewWorkerManager "master-1" 1 true tc0 with
    errCenterErr := some (Err.userCallbackError 0) }

/-- Claim C10 (amended): `Tick` never blocks waiting for new events.  It
first re-raises an error previously recorded in the error centre; absent
such an error, an empty queue makes it return nil immediately, and
otherwise it processes the already-enqueued events in order — running each
event's before-hook before the corresponding callback — returning the
first error a callback produces.  (`tickSoftDeadlineSeconds` records the
5-second soft deadline of the real-time context, outside this sequential
model.) -/
theorem C10_tick_drains_without_blocking :
    tickSoftDeadlineSeconds = 5 ∧
    (∀ (cbs : masterEvent → Option Err) (m : WorkerManager) (e : Err),
      m.errCenterErr = some e → Tick cbs m = (some e, m)) ∧
    (∀ (cbs : masterEvent → Option Err) (m : WorkerManager),
      m.errCenterErr = none → m.eventQueue = [] → Tick cbs m = (none, m)) ∧
    (∀ (cbs : masterEvent → Option Err) (m : WorkerManager),
      m.errCenterErr = none →
      Tick cbs m = (firstCallbackErr cbs m.eventQueue,
        consumeHooks m (processedPrefix cbs m.eventQueue))) := by
  have hnone : ∀ (cbs : masterEvent → Option Err) (m : WorkerManager),
      m.errCenterErr = none → Tick cbs m = tickLoop cbs m.eventQueue m := by
    intro cbs m h
    unfold Tick
    rw [h]
  refine ⟨rfl, ?_, ?_, ?_⟩
  · intro cbs m e h
    unfold Tick
    rw [h]
  · intro cbs m he hq
    rw [hnone cbs m he, hq]
    rfl
  · intro cbs m he
    rw [hnone cbs m he]
    exact tickLoop_spec cbs m.eventQueue m rfl

/-- Claim C10 witness: at concrete inputs — a fresh manager (empty queue,
no pending error) ticks to nil immediately, and a manager with a recorded
background error returns that error. -/
theorem C10_witness :
    Tick (fun _ => none) (NewWorkerManager "master-1" 1 true tc0) =
      (none, NewWorkerManager "master-1" 1 true tc0) ∧
    Tick (fun _ => none) mTickErr = (some (Err.userCallbackError 0), mTickErr) :=
  ⟨C10_tick_drains_without_blocking.2.2.1 (fun _ => none)
    (NewWorkerManager "master-1" 1 true tc0) rfl rfl,
   C10_tick_drains_without_blocking.2.1 (fun _ => none) mTickErr
    (Err.userCallbackError 0) rfl⟩

/-- Claim C10 counterexample: with an empty event queue but an error
already recorded in the error centre, `Tick` does not return nil — it
returns the recorded error — contradicting "whenever the event queue is
empty it returns nil immediately". -/
theorem C10_counterexample :
    mTickErr.eventQueue = [] ∧
    Tick (fun _ => none) mTickErr = (some (Err.userCallbackError 0), mTickErr) ∧
    (Tick (fun _ => none) mTickErr).1 ≠ none := by
  refine ⟨rfl, rfl, by simp [Tick, mTickErr]⟩

/-- Claim C7 (amended): `CreateWorker` bounds in-flight dispatches with a
semaphore of `maxCreateWorkerConcurrency = 100` whose acquisition carries a
5-second deadline; on exhaustion it returns `ErrMasterConcurrencyExceeded`
without spawning anything.  When the quota is acquired and the config
encodes successfully for the worker type, the remainder of the dispatch is
spawned asynchronously and `CreateWorker` returns promptly with the minted
worker ID and a nil error; when config preparation fails, `CreateWorker`
returns that error synchronously with no async dispatch. -/
theorem C7_create_worker_concurrency :
    maxCreateWorkerConcurrency = 100 ∧
    createWorkerWaitQuotaTimeoutSeconds = 5 ∧
    (∀ (inFlight : Nat) (wt : WorkerType) (cfg : WorkerConfig) (freshID : WorkerID),
      maxCreateWorkerConcurrency ≤ inFlight →
      CreateWorker inFlight wt cfg freshID =
        { workerID := "", err := some Err.masterConcurrencyExceeded,
          asyncSpawned := false, inFlightAfter := inFlight }) ∧
    (∀ (inFlight : Nat) (wt : WorkerType) (cfg : WorkerConfig) (freshID : WorkerID)
        (raw : List Nat) (wid : WorkerID),
      inFlight < maxCreateWorkerConcurrency →
      prepareWorkerConfig wt cfg freshID = Except.ok (raw, wid) →
      CreateWorker inFlight wt cfg freshID =
        { workerID := wid, err := none, asyncSpawned := true,
          inFlightAfter := inFlight + 1 }) ∧
    (∀ (inFlight : Nat) (wt : WorkerType) (cfg : WorkerConfig) (freshID : WorkerID)
        (er : Err),
      inFlight < maxCreateWorkerConcurrency →
      prepareWorkerConfig wt cfg freshID = Except.error er →
      CreateWorker inFlight wt cfg freshID =
        { workerID := "", err := some er, asyncSpawned := false,
          inFlightAfter := inFlight + 1 }) := by
  refine ⟨rfl, rfl, ?_, ?_, ?_⟩
  · intro inFlight wt cfg freshID h
    unfold CreateWorker
    rw [if_pos h]
  · intro inFlight wt cfg freshID raw wid h hk
    unfold CreateWorker
    rw [if_neg (by omega), hk]
  · intro inFlight wt cfg freshID er h hk
    unfold CreateWorker
    rw [if_neg (by omega), hk]

/-- Claim C7 witness: at concrete inputs — with 100 dispatches in flight
the quota is exhausted and `ConcurrencyExceeded` is returned; with a free
quota and a valid master-meta config the call spawns the async dispatch
and returns the pre-allocated worker ID with a nil error. -/
theorem C7_witness :
    CreateWorker 100 WorkerType.otherWorker (WorkerConfig.userConfig []) "fresh-id" =
      { workerID := "", err := some Err.masterConcurrencyExceeded,
        asyncSpawned := false, inFlightAfter := 100 } ∧
    CreateWorker 0 WorkerType.cvsJobMaster (WorkerConfig.masterMeta "job-1" [7]) "fresh-id" =
      { workerID := "job-1", err := none, asyncSpawned := true, inFlightAfter := 1 } :=
  ⟨C7_create_worker_concurrency.2.2.1 100 WorkerType.otherWorker
    (WorkerConfig.userConfig []) "fresh-id" (by decide),
   C7_create_worker_concurrency.2.2.2.1 0 WorkerType.cvsJobMaster
    (WorkerConfig.masterMeta "job-1" [7]) "fresh-id" [7] "job-1" (by decide) rfl⟩

/-- Claim C7 counterexample: with a free quota, `CreateWorker` for a
nested-master worker type whose config is not a `MasterMetaKVData` returns
`ErrMasterInvalidMeta` synchronously and spawns no asynchronous dispatch —
contradicting "otherwise the remainder of the dispatch runs asynchronously
and CreateWorker returns promptly with the freshly minted workerID and a
nil error". -/
theorem C7_counterexample :
    0 < maxCreateWorkerConcurrency ∧
    CreateWorker 0 WorkerType.cvsJobMaster (WorkerConfig.userConfig []) "fresh-id" =
      { workerID := "", err := some Err.masterInvalidMeta,
        asyncSpawned := false, inFlightAfter := 1 } ∧
    (CreateWorker 0 WorkerType.cvsJobMaster (WorkerConfig.userConfig []) "fresh-id").err ≠
      none := by
  refine ⟨by decide, rfl, by decide⟩

/-- Claim C8 (confirmed): when the dispatch RPC to the executor fails with
a transport error after the worker entry has been registered
(`BeforeStartingWorker`), the asynchronous dispatch body reports a nil
error to the manager: no dispatch-failed event is generated (the queue is
exactly as before) and the *Created* entry is kept, so the worker's fate
is learned later from heartbeats or their timeout. -/
theorem C8_dispatch_network_failure_masked :
    ∀ (m : WorkerManager) (wid : WorkerID) (exec : String) (now : Nat)
      (m1 : WorkerManager),
      BeforeStartingWorker m wid exec now = some m1 →
      dispatchAsyncBody m wid exec now DispatchOutcome.rpcNetworkError = some m1 ∧
      m1.eventQueue = m.eventQueue ∧
      lookupEntry m1 wid =
        some (newWorkerEntry wid exec (nextExpireTime m now)
          WorkerEntryState.created { code := WorkerStatusCode.created }) := by
  intro m wid exec now m1 h
  have hchar : lookupEntry m wid = none ∧
      m1 = { m with
        workerEntries := insertA m.workerEntries wid
          (newWorkerEntry wid exec (nextExpireTime m now)
            WorkerEntryState.created { code := WorkerStatusCode.created }) } := by
    unfold BeforeStartingWorker at h
    split at h
    · exact absurd h (by simp)
    · rename_i hnone
      injection h with h
      exact ⟨hnone, h.symm⟩
  obtain ⟨hnone, hm1⟩ := hchar
  refine ⟨?_, ?_, ?_⟩
  · unfold dispatchAsyncBody
    rw [h]
    rfl
  · rw [hm1]
  · rw [hm1]
    unfold lookupEntry
    dsimp only []
    rw [lookupA_insertA, if_pos rfl]

/-- The manager produced by registering worker "w1" on executor "exec-1"
at time 0 on a fresh initialized manager. -/
def mC8res : WorkerManager :=
  { NewWorkerManager "master-1" 1 true tc0 with
    workerEntries := [("w1",
      newWorkerEntry "w1" "exec-1"
        (nextExpireTime (NewWorkerManager "master-1" 1 true tc0) 0)
        WorkerEntryState.created { code := WorkerStatusCode.created })] }

theorem lookupA_map_snd (f : WorkerEntry → WorkerEntry)
    (l : List (WorkerID × WorkerEntry)) (wid : WorkerID) :
    lookupA (l.map (fun p => (p.1, f p.2))) wid = (lookupA l wid).map f := by
  induction l with
  | nil => rfl
  | cons p rest ih =>
    obtain ⟨w, e⟩ := p
    simp only [List.map_cons]
    by_cases h : w = wid
    · rw [lookupA, if_pos h, lookupA, if_pos h]
      rfl
    · rw [lookupA, if_neg h, lookupA, if_neg h, ih]

theorem recoverFold_all_finished (ps : List (WorkerID × WorkerStatus))
    (acc : List (WorkerID × WorkerEntry))
    (h : ∀ q ∈ ps, q.2.code = WorkerStatusCode.finished) :
    recoverFold acc ps = acc := by
  induction ps generalizing acc with
  | nil => rfl
  | cons p rest ih =>
    unfold recoverFold
    rw [List.foldl_cons, if_pos (h p (by simp))]
    have := ih acc (fun q hq => h q (by simp [hq]))
    unfold recoverFold at this
    exact this

theorem initAfterRecoverFinish_eventQueue (m : WorkerManager) (timedOut : Bool) :
    (initAfterRecoverFinish m timedOut).eventQueue = m.eventQueue := by
  unfold initAfterRecoverFinish
  split <;> rfl

/-- Claim C3 (confirmed): `InitAfterRecover` skips every persisted worker
whose status is Finished (looking it up afterwards finds no entry), turns
each remaining persisted worker into a *Wait* entry, returns immediately
through the fast path when no worker survives (the manager goes straight
to Ready with no entries), and on the
`WorkerTimeoutDuration + WorkerTimeoutGracefulDuration` timeout marks every
still-*Wait* entry as Tombstone, leaving every other entry and the event
queue untouched — so no `WorkerOffline` event is enqueued. -/
theorem C3_init_after_recover :
    (∀ (m : WorkerManager) (ps : List (WorkerID × WorkerStatus)) (wid : WorkerID)
        (st : WorkerStatus),
      m.workerEntries = [] → (ps.map Prod.fst).Nodup → (wid, st) ∈ ps →
      lookupEntry (initAfterRecoverLoad m ps) wid =
        if st.code = WorkerStatusCode.finished then none
        else some (newWaitingWorkerEntry wid st)) ∧
    (∀ (m : WorkerManager) (ps : List (WorkerID × WorkerStatus)),
      m.workerEntries = [] →
      (∀ q ∈ ps, q.2.code = WorkerStatusCode.finished) →
      initAfterRecoverLoad m ps =
        { m with workerEntries := [],
                 state := workerManagerState.workerManagerReady }) ∧
    (∀ (m : WorkerManager) (timedOut : Bool),
      (initAfterRecoverFinish m timedOut).eventQueue = m.eventQueue) ∧
    (∀ (m : WorkerManager) (wid : WorkerID) (e : WorkerEntry),
      lookupEntry m wid = some e →
      lookupEntry (initAfterRecoverFinish m true) wid =
        some (if e.state = WorkerEntryState.wait then e.markAsTombstone else e)) ∧
    (∀ m : WorkerManager, initAfterRecoverTimeoutInterval m =
      m.timeouts.workerTimeoutDuration + m.timeouts.workerTimeoutGracefulDuration) := by
  refine ⟨?_, ?_, initAfterRecoverFinish_eventQueue, ?_, fun m => rfl⟩
  · intro m ps wid st hempty hnd hmem
    have hfold := recoverFold_lookup_mem ps m.workerEntries wid st hnd hmem
    unfold recoverFold at hfold
    unfold initAfterRecoverLoad lookupEntry
    dsimp only []
    split
    · rw [hfold, hempty]
      split <;> rfl
    · rw [hfold, hempty]
      split <;> rfl
  · intro m ps hempty hfin
    have hfold := recoverFold_all_finished ps m.workerEntries hfin
    unfold recoverFold at hfold
    unfold initAfterRecoverLoad
    dsimp only []
    rw [hfold, hempty]
    rfl
  · intro m wid e hlook
    unfold initAfterRecoverFinish
    dsimp only []
    rw [if_pos rfl]
    unfold lookupEntry
    dsimp only []
    rw [lookupA_map_snd
      (fun e => if e.state = WorkerEntryState.wait then e.markAsTombstone else e)]
    unfold lookupEntry at hlook
    rw [hlook]
    rfl

/-- Two persisted workers: one Normal (survives as a Wait entry), one
Finished (skipped). -/
def psC3 : List (WorkerID × WorkerStatus) :=
  [("w1", { code := WorkerStatusCode.normal }),
   ("w2", { code := WorkerStatusCode.finished })]

/-- Claim C3 witness: at concrete inputs — the Normal worker becomes a
*Wait* entry, the Finished one is skipped. -/
theorem C3_witness :
    lookupEntry (initAfterRecoverLoad mLoading psC3) "w1" =
      some (newWaitingWorkerEntry "w1" { code := WorkerStatusCode.normal }) ∧
    lookupEntry (initAfterRecoverLoad mLoading psC3) "w2" = none :=
  ⟨C3_init_after_recover.1 mLoading psC3 "w1" { code := WorkerStatusCode.normal }
    rfl (by decide) (by decide),
   C3_init_after_recover.1 mLoading psC3 "w2" { code := WorkerStatusCode.finished }
    rfl (by decide) (by decide)⟩

/-- The `workerOfflineEvent` built by `checkWorkerEntriesOnce`
(worker_manager.go lines 473-484) when the entry of `wid` with last state
`e` times out. -/
def timeoutOfflineEvent (wid : WorkerID) (e : WorkerEntry) : masterEvent :=
  { tp := masterEventType.workerOfflineEvent,
    workerID := wid,
    handle := WorkerHandleRef.tombstone wid,
    err := some (offlineReasonOf wid e.statusReader),
    beforeHook := some (BeforeHookTag.markTombstone wid) }

/-- Claim C5 (confirmed): when the timeout checker finds an entry whose
`ExpireTime` has passed, it marks the entry Offline and enqueues exactly
one `WorkerOffline` event — a second scan enqueues nothing further — and
the event's error is computed deterministically from the last known status
code: Finished ⇒ `WorkerFinish`, Stopped ⇒ `WorkerStop`, anything else ⇒
`WorkerOffline(workerID)`. -/
theorem C5_timeout_offline_event :
    ∀ (m : WorkerManager) (wid : WorkerID) (e : WorkerEntry) (now : Nat),
      m.state = workerManagerState.workerManagerReady →
      m.workerEntries = [(wid, e)] →
      e.state ≠ WorkerEntryState.offline →
      e.state ≠ WorkerEntryState.tombstone →
      e.expireTime ≤ now →
      m.eventQueue.length < eventQueueCapacity →
      (checkWorkerEntriesOnce now m = Except.ok { m with
          workerEntries := [(wid, e.markAsOffline)],
          eventQueue := m.eventQueue ++ [timeoutOfflineEvent wid e] } ∧
       checkWorkerEntriesOnce now { m with
          workerEntries := [(wid, e.markAsOffline)],
          eventQueue := m.eventQueue ++ [timeoutOfflineEvent wid e] } =
        Except.ok { m with
          workerEntries := [(wid, e.markAsOffline)],
          eventQueue := m.eventQueue ++ [timeoutOfflineEvent wid e] } ∧
       offlineReasonOf wid e.statusReader =
        (match e.statusReader.status.code with
         | WorkerStatusCode.finished => Err.workerFinish
         | WorkerStatusCode.stopped => Err.workerStop
         | _ => Err.workerOffline wid)) := by
  intro m wid e now hst hentries hno hnt hexp hcap
  have hnlt : ¬ now < e.expireTime := by omega
  have hnor : ¬ (e.state = WorkerEntryState.offline ∨
      e.state = WorkerEntryState.tombstone) := by
    intro hc
    cases hc with
    | inl hh => exact hno hh
    | inr hh => exact hnt hh
  refine ⟨?_, ?_, ?_⟩
  · unfold checkWorkerEntriesOnce
    rw [if_neg (by simp [hst]), hentries]
    simp only [List.map_cons, List.map_nil, List.foldlM_cons, List.foldlM_nil]
    unfold checkEntryOnce lookupEntry
    rw [hentries]
    rw [lookupA, if_pos rfl]
    dsimp only []
    rw [if_neg hnor, if_neg hnlt]
    rw [insertA, if_pos rfl]
    unfold enqueueEvent
    rw [if_pos hcap]
    rfl
  · unfold checkWorkerEntriesOnce
    rw [if_neg (by simp [hst])]
    simp only [List.map_cons, List.map_nil, List.foldlM_cons, List.foldlM_nil]
    unfold checkEntryOnce lookupEntry
    rw [lookupA, if_pos rfl]
    rfl
  · rcases e with ⟨ewid, eexec, eexp, est, ⟨⟨c⟩, pend⟩⟩
    cases c <;> rfl

/-- A timed-out Online entry with last known status Normal. -/
def eC5 : WorkerEntry :=
  { workerID := "w1", executorID := "exec-1", expireTime := 10,
    state := WorkerEntryState.online,
    statusReader := { status := { code := WorkerStatusCode.normal }, pending := none } }

/-- A ready manager holding only `eC5`. -/
def mC5 : WorkerManager := { mReady5 with workerEntries := [("w1", eC5)] }

/-- Claim C5 witness: at time 30 the entry (expire time 10) is marked
Offline and exactly the offline event with reason `WorkerOffline("w1")`
is enqueued. -/
theorem C5_witness :
    checkWorkerEntriesOnce 30 mC5 = Except.ok { mC5 with
      workerEntries := [("w1", eC5.markAsOffline)],
      eventQueue := mC5.eventQueue ++ [timeoutOfflineEvent "w1" eC5] } :=
  (C5_timeout_offline_event mC5 "w1" eC5 30 rfl rfl (by decide) (by decide)
    (by decide) (by decide)).1

/-- Claim C8 witness: the network-failure outcome at concrete inputs keeps
the registered entry and enqueues nothing. -/
theorem C8_witness :
    dispatchAsyncBody (NewWorkerManager "master-1" 1 true tc0) "w1" "exec-1" 0
      DispatchOutcome.rpcNetworkError = some mC8res ∧
    mC8res.eventQueue = (NewWorkerManager "master-1" 1 true tc0).eventQueue :=
  ⟨(C8_dispatch_network_failure_masked (NewWorkerManager "master-1" 1 true tc0)
      "w1" "exec-1" 0 mC8res (by rfl)).1,
   (C8_dispatch_network_failure_masked (NewWorkerManager "master-1" 1 true tc0)
      "w1" "exec-1" 0 mC8res (by rfl)).2.1⟩

/-- Claim C4 witness: a manager constructed with `isInit` true is
initialized, matching the history flags. -/
theorem C4_witness :
    IsInitialized (NewWorkerManager "master-1" 7 true tc0) = true ↔
      (true = true ∨ false = true) :=
  C4_is_initialized_iff (Reached.started "master-1" 7 true tc0)

/-- Claim C2 (confirmed): for every `WorkerID`, over any sequence of
`HandleHeartbeat` calls and `Tick` deliveries starting from a state
satisfying the at-most-one-online invariant (which the freshly built
manager does), the `workerOnlineEvent` is delivered to the user at most
once.  In particular, a heartbeat received in the Ready state for an entry
that is not *Created* enqueues nothing, and the Wait-to-Online transition
during recovery (`WaitingHeartbeat`) enqueues nothing at all. -/
theorem C2_at_most_one_online_delivery :
    (∀ (m0 : WorkerManager) (steps : List Step) (wid : WorkerID),
      atMostOneOnlineInv m0 [] →
      onlineEventCount wid (runSteps m0 steps).2 ≤ 1) ∧
    (∀ (m : WorkerManager) (msg : HeartbeatPingMessage) (fromNode : String) (now : Nat)
        (m' : WorkerManager) (e : WorkerEntry),
      m.state = workerManagerState.workerManagerReady →
      lookupEntry m msg.fromWorkerID = some e →
      e.state ≠ WorkerEntryState.created →
      HandleHeartbeat m msg fromNode now = HBResult.ok m' →
      m'.eventQueue = m.eventQueue) ∧
    (∀ (m : WorkerManager) (msg : HeartbeatPingMessage) (fromNode : String) (now : Nat)
        (m' : WorkerManager),
      m.state = workerManagerState.workerManagerWaitingHeartbeat →
      HandleHeartbeat m msg fromNode now = HBResult.ok m' →
      m'.eventQueue = m.eventQueue) := by
  refine ⟨?_, ?_, ?_⟩
  · intro m0 steps wid hinv
    have h := (runSteps_inv m0 steps hinv wid).1
    rw [onlineEventCount_append] at h
    omega
  · intro m msg fromNode now m' e hst hlook hnc h
    unfold HandleHeartbeat at h
    split at h
    · rename_i hc
      rw [hst] at hc
      exact absurd hc (by simp)
    · split at h
      · exact absurd h (by simp)
      · injection h with h; subst h; rfl
      · split at h
        · injection h with h; subst h; rfl
        · rename_i entry hlook2
          rw [hlook] at hlook2
          injection hlook2 with hlook2
          split at h
          · rename_i hc
            rw [hst] at hc
            exact absurd hc (by simp)
          · dsimp only [] at h
            split at h
            · injection h with h; subst h; rfl
            · rename_i hcc
              rw [not_not] at hcc
              rw [← hlook2] at hcc
              exact absurd hcc hnc
  · intro m msg fromNode now m' hst h
    unfold HandleHeartbeat at h
    split at h
    · rename_i hc
      rw [hst] at hc
      exact absurd hc (by simp)
    · split at h
      · exact absurd h (by simp)
      · injection h with h; subst h; rfl
      · split at h
        · injection h with h; subst h; rfl
        · dsimp only [] at h
          split at h
          · exact absurd h (by simp)
          · split at h
            · injection h with h; subst h; rfl
            · injection h with h; subst h; rfl

/-- A Ready manager holding one entry that is already Online. -/
def mC2 : WorkerManager :=
  { NewWorkerManager "master-1" 1 true tc0 with
    workerEntries := [("w1",
      { workerID := "w1", executorID := "exec-1", expireTime := 50,
        state := WorkerEntryState.online,
        statusReader := { status := { code := WorkerStatusCode.normal },
                          pending := none } })] }

/-- The heartbeat `mC2` receives: same epoch, known worker. -/
def msgC2 : HeartbeatPingMessage := { sendTime := 0, fromWorkerID := "w1", epoch := 1 }

/-- `mC2` after the heartbeat: only the expiration is refreshed
(0 + 15 + 5 = 20). -/
def mC2after : WorkerManager :=
  { mC2 with
    workerEntries := [("w1",
      { workerID := "w1", executorID := "exec-1", expireTime := 20,
        state := WorkerEntryState.online,
        statusReader := { status := { code := WorkerStatusCode.normal },
                          pending := none } })] }

/-- Claim C2 witness: the empty run from a fresh manager delivers no
online event, and the repeat heartbeat for the already-Online `mC2` entry
leaves the event queue untouched. -/
theorem C2_witness :
    onlineEventCount "w1" (runSteps (NewWorkerManager "master-1" 1 true tc0) []).2 ≤ 1 ∧
    mC2after.eventQueue = mC2.eventQueue :=
  ⟨C2_at_most_one_online_delivery.1 (NewWorkerManager "master-1" 1 true tc0) [] "w1"
    (by
      intro wid
      refine ⟨by simp [onlineEventCount, NewWorkerManager], ?_⟩
      intro e hl hs
      simp [lookupEntry, NewWorkerManager, lookupA] at hl),
   C2_at_most_one_online_delivery.2.1 mC2 msgC2 "exec-1" 0 mC2after
    { workerID := "w1", executorID := "exec-1", expireTime := 50,
      state := WorkerEntryState.online,
      statusReader := { status := { code := WorkerStatusCode.normal }, pending := none } }
    rfl rfl (by decide) (by decide)⟩

end Microcosm
